import Mathlib

/-!
Verification development for the n8n OpenTelemetry tracing interception layer
(`tracing.js`) and the Langfuse observation-type mapper
(`langfuse-type-mapper.js`).

The JavaScript sources are shallowly embedded: JS values are an inductive
type, exceptions are `Except`, the env-derived module constants become an
explicit `TracingConfig` record, and the two patched engine entry points
(`processRunExecutionData`, `runNode`) become functions from an abstract
engine behaviour (resolve / reject / synchronous throw) to the list of span
events they perform plus the outcome surfaced to the caller.
-/

namespace N8nTracing

mutual
/-- Model of a JavaScript value as far as the tracing layer inspects it.
`undef` is JS `undefined`, `func` stands for any function value, `bigintv`
for any BigInt (the one JSON-unserialisable primitive the code can meet).
Numbers are modelled as integers; no claim in scope depends on float
behaviour. Arrays and objects use the mutual types below so that all
recursions stay structural (kernel-reducible). -/
inductive JsValue where
  | undef : JsValue
  | null : JsValue
  | bool (b : Bool) : JsValue
  | num (n : Int) : JsValue
  | str (s : String) : JsValue
  | bigintv (n : Int) : JsValue
  | func : JsValue
  | arr (elems : JsArray) : JsValue
  | obj (fields : JsFields) : JsValue
deriving DecidableEq

/-- Spine of a JS array (mutual with `JsValue`). -/
inductive JsArray where
  | nil : JsArray
  | cons (v : JsValue) (rest : JsArray) : JsArray
deriving DecidableEq

/-- Spine of a JS object: ordered own-property list (mutual with `JsValue`). -/
inductive JsFields where
  | nil : JsFields
  | cons (k : String) (v : JsValue) (rest : JsFields) : JsFields
deriving DecidableEq
end

/-- Build a `JsArray` from a list of values. -/
def arrOfList : List JsValue → JsArray
  | [] => JsArray.nil
  | v :: rest => JsArray.cons v (arrOfList rest)

/-- Build ordered object fields from an association list. -/
def fieldsOfList : List (String × JsValue) → JsFields
  | [] => JsFields.nil
  | (k, v) :: rest => JsFields.cons k v (fieldsOfList rest)

/-- JS truthiness (`if (x)` / `x || y`): `undefined`, `null`, `false`, `0`,
`0n` and the empty string are falsy, everything else (including functions,
arrays and objects) is truthy. -/
def jsTruthy : JsValue → Bool
  | JsValue.undef => false
  | JsValue.null => false
  | JsValue.bool b => b
  | JsValue.num n => n != 0
  | JsValue.str s => s != ""
  | JsValue.bigintv n => n != 0
  | JsValue.func => true
  | JsValue.arr _ => true
  | JsValue.obj _ => true

/-- JS `a || b` on values: `a` when truthy, otherwise `b`. -/
def jsOr (a b : JsValue) : JsValue := if jsTruthy a then a else b

/-- First value stored under key `k` in an object spine, JS `undefined` when
absent. -/
def fieldGet : JsFields → String → JsValue
  | JsFields.nil, _ => JsValue.undef
  | JsFields.cons k v rest, key => if k = key then v else fieldGet rest key

/-- JS property read `v[k]`: field lookup on objects, `undefined` on every
other value (primitives and arrays have none of the named properties the
tracing code reads). -/
def getField (v : JsValue) (k : String) : JsValue :=
  match v with
  | JsValue.obj fs => fieldGet fs k
  | _ => JsValue.undef

/-- Whether `first && typeof first === 'object'` holds: truthy and of object
type, i.e. a (non-null) object or an array. -/
def isObjectLike : JsValue → Bool
  | JsValue.obj _ => true
  | JsValue.arr _ => true
  | _ => false

/-- Minimal JSON string escaping (quote, backslash and the common control
characters); enough for every string the embedded code paths construct. -/
def jsonEscapeChar (c : Char) : String :=
  if c = '"' then "\\\""
  else if c = '\\' then "\\\\"
  else if c = '\n' then "\\n"
  else if c = '\t' then "\\t"
  else if c = '\r' then "\\r"
  else String.mk [c]

/-- JSON rendering of a string literal. -/
def jsonQuote (s : String) : String :=
  "\"" ++ String.join (s.data.map jsonEscapeChar) ++ "\""

mutual
/-- Model of `JSON.stringify`. `Except.error` is a thrown `TypeError`
(serialising a BigInt anywhere in the value throws). The `Option` result
distinguishes JS `undefined` (returned for `undefined`/function input) from
a real string. Inside arrays such values render as `null`; inside objects
the field is omitted — as `JSON.stringify` does. -/
def jsonStringifyE : JsValue → Except String (Option String)
  | JsValue.undef => Except.ok none
  | JsValue.func => Except.ok none
  | JsValue.null => Except.ok (some "null")
  | JsValue.bool b => Except.ok (some (if b then "true" else "false"))
  | JsValue.num n => Except.ok (some (toString n))
  | JsValue.str s => Except.ok (some (jsonQuote s))
  | JsValue.bigintv _ => Except.error "TypeError: Do not know how to serialize a BigInt"
  | JsValue.arr elems =>
    match jsonStringifyArr elems with
    | Except.error e => Except.error e
    | Except.ok pieces => Except.ok (some ("[" ++ String.intercalate "," pieces ++ "]"))
  | JsValue.obj fields =>
    match jsonStringifyFields fields with
    | Except.error e => Except.error e
    | Except.ok pieces =>
      Except.ok (some ("\x7b" ++ String.intercalate "," pieces ++ "\x7d"))

def jsonStringifyArr : JsArray → Except String (List String)
  | JsArray.nil => Except.ok []
  | JsArray.cons v rest =>
    match jsonStringifyE v with
    | Except.error e => Except.error e
    | Except.ok r =>
      match jsonStringifyArr rest with
      | Except.error e => Except.error e
      | Except.ok pieces => Except.ok ((r.getD "null") :: pieces)

def jsonStringifyFields : JsFields → Except String (List String)
  | JsFields.nil => Except.ok []
  | JsFields.cons k v rest =>
    match jsonStringifyE v with
    | Except.error e => Except.error e
    | Except.ok r =>
      match jsonStringifyFields rest with
      | Except.error e => Except.error e
      | Except.ok pieces =>
        match r with
        | none => Except.ok pieces
        | some sv => Except.ok ((jsonQuote k ++ ":" ++ sv) :: pieces)
end

/-- Embedding of `safeJSONStringify` (tracing.js lines 142-148):
`try { return JSON.stringify(obj) } catch (e) { return
JSON.stringify({ _serializationError: String(e) }) }`. The outer `Except`
is an exception escaping the function itself; the inner `Option` is its JS
return value (`none` = `undefined`). -/
def safeJSONStringifyE (v : JsValue) : Except String (Option String) :=
  match jsonStringifyE v with
  | Except.ok r => Except.ok r
  | Except.error e =>
    jsonStringifyE (JsValue.obj (JsFields.cons "_serializationError" (JsValue.str e) JsFields.nil))

/-- The JS return value of `safeJSONStringify` (it never actually throws;
proved in `serialization_safety_amended`). -/
def safeJSONStringifyJs (v : JsValue) : Option String :=
  match safeJSONStringifyE v with
  | Except.ok r => r
  | Except.error _ => none

/-- Suffix appended by `truncateIO` when a string is cut. -/
def truncSuffix (n : Nat) : String := "...[truncated " ++ toString n ++ " chars]"

/-- Core of `truncateIO` (tracing.js lines 150-157) on string input, with the
`MAX_IO_CHARS` cap as an explicit parameter (it is read from the
`TRACING_MAX_IO_CHARS` env var, default 12000). -/
def truncateIoStr (maxChars : Nat) (s : String) : String :=
  if s.data.length ≤ maxChars then s
  else String.mk (s.data.take maxChars) ++ truncSuffix (s.data.length - maxChars)

/-- Embedding of `truncateIO` with its `str == null` guard: `null`/`undefined`
become the empty string (the callers only ever pass a string or
`undefined`, so the `String(str)` coercion branch is not reachable here). -/
def truncateIo (maxChars : Nat) (v : Option String) : String :=
  match v with
  | none => ""
  | some s => truncateIoStr maxChars s

/-- JS `\s` whitespace as used by `trim` and `replace(/\s+/g, ...)`,
restricted to the ASCII whitespace the inputs can contain. -/
def jsIsWs (c : Char) : Bool :=
  c = ' ' || c = '\t' || c = '\n' || c = '\r' || c = Char.ofNat 11 || c = Char.ofNat 12

/-- JS `String.prototype.trim` on a char list. -/
def trimChars (cs : List Char) : List Char :=
  ((cs.dropWhile jsIsWs).reverse.dropWhile jsIsWs).reverse

/-- Core of `replace(/\s+/g, '-')`; the flag records whether the previous
character was part of a whitespace run already replaced by a hyphen. -/
def collapseWsGo : Bool → List Char → List Char
  | _, [] => []
  | inRun, c :: cs =>
    if jsIsWs c then
      if inRun then collapseWsGo true cs else '-' :: collapseWsGo true cs
    else c :: collapseWsGo false cs

/-- One pass of `replace(/\s+/g, '-')`: each maximal whitespace run becomes a
single hyphen. -/
def collapseWsChars (cs : List Char) : List Char := collapseWsGo false cs

/-- Whether a character survives the sanitizer class `[a-zA-Z0-9._-]`. -/
def sanitizerAllowed (c : Char) : Bool :=
  ('a' ≤ c && c ≤ 'z') || ('A' ≤ c && c ≤ 'Z') || ('0' ≤ c && c ≤ '9') ||
    c = '.' || c = '_' || c = '-'

/-- Embedding of `sanitizeSegment` (tracing.js lines 106-113): falsy input
(here: the empty string) gives the default, otherwise trim, collapse
whitespace runs to hyphens, replace each disallowed character with a
hyphen, cap at 80 characters, and fall back to the default if the result is
empty. -/
def sanitizeSegment (value : String) (dflt : String) : String :=
  if value = "" then dflt
  else
    let cleaned := ((collapseWsChars (trimChars value.data)).map
      (fun c => if sanitizerAllowed c then c else '-')).take 80
    if cleaned.isEmpty then dflt else String.mk cleaned

/-- Fuel-driven core of global string replacement (the fuel is the input
length, which bounds the number of steps; left-to-right, non-overlapping,
replacements are not rescanned — the semantics of `replace(/literal/g, r)`
for a nonempty literal pattern). -/
def replaceAllGo (pat repl : List Char) : Nat → List Char → List Char
  | _, [] => []
  | 0, s => s
  | Nat.succ fuel, c :: cs =>
    if !pat.isEmpty && pat.isPrefixOf (c :: cs) then
      repl ++ replaceAllGo pat repl fuel (List.drop (pat.length - 1) cs)
    else c :: replaceAllGo pat repl fuel cs

/-- JS `s.replace(/pat/g, repl)` for a literal pattern `pat` (the
placeholder regexes in `buildWorkflowSpanName` are escaped literals, and
the replacement strings produced by `sanitizeSegment` contain no `$`). -/
def replaceAllStr (s pat repl : String) : String :=
  String.mk (replaceAllGo pat.data repl.data s.data.length s.data)

/-- The placeholder substitution performed on `WORKFLOW_SPAN_NAME_PATTERN`
(tracing.js lines 123-127), before the final `.slice(0, 180)`. -/
def substitutePattern (p wfId wfName execId sessId : String) : String :=
  replaceAllStr
    (replaceAllStr
      (replaceAllStr
        (replaceAllStr p "{workflowId}" (sanitizeSegment wfId "wf"))
        "{workflowName}" (sanitizeSegment wfName "workflow"))
      "{executionId}" (sanitizeSegment execId "exec"))
    "{sessionId}" (sanitizeSegment sessId "sess")

/-- The `PATTERN && PATTERN.trim()` guard: a configured pattern is active
when it is set and not pure whitespace. -/
def patternActive : Option String → Bool
  | none => false
  | some p => !(trimChars p.data).isEmpty

/-- Branches (b) and (c) of the workflow naming policy (tracing.js lines
131-138): dynamic concatenation of sanitized segments, else the constant. -/
def workflowNameFallback (dyn : Bool) (wfId wfName execId : String) : String :=
  if dyn then
    sanitizeSegment wfId "wf" ++ "-" ++ sanitizeSegment wfName "workflow" ++ "-" ++
      sanitizeSegment execId "exec"
  else "n8n.workflow.execute"

/-- Embedding of `buildWorkflowSpanName` (tracing.js lines 115-139). The
pattern (when set and not whitespace-only) has highest precedence; its
substituted form is capped at 180 characters and falls back to the constant
name if empty. -/
def buildWorkflowSpanName (pattern : Option String) (dyn : Bool)
    (wfId wfName execId sessId : String) : String :=
  match pattern with
  | some p =>
    if !(trimChars p.data).isEmpty then
      let n := String.mk ((substitutePattern p wfId wfName execId sessId).data.take 180)
      if n = "" then "n8n.workflow.execute" else n
    else workflowNameFallback dyn wfId wfName execId
  | none => workflowNameFallback dyn wfId wfName execId

/-- Embedding of `deriveSessionId` (tracing.js lines 271-273):
`executionId || 'unknown'`. -/
def deriveSessionId (executionId : String) : String :=
  if executionId = "" then "unknown" else executionId

/-! Observation-type classifier, embedded from `langfuse-type-mapper.js`. -/

/-- The `EXACT_SETS` table in its `Object.entries` (declaration) order:
agent, generation, embedding, retriever, evaluator, guardrail, chain. -/
def exactSets : List (String × List String) :=
  [("agent", ["Agent", "AgentTool"]),
   ("generation",
    ["LmChatOpenAi", "LmOpenAi", "OpenAi", "Anthropic", "GoogleGemini", "Groq",
     "Perplexity", "LmChatAnthropic", "LmChatGoogleGemini", "LmChatMistralCloud",
     "LmChatOpenRouter", "LmChatXAiGrok", "OpenAiAssistant"]),
   ("embedding",
    ["EmbeddingsAwsBedrock", "EmbeddingsAzureOpenAi", "EmbeddingsCohere",
     "EmbeddingsGoogleGemini", "EmbeddingsGoogleVertex",
     "EmbeddingsHuggingFaceInference", "EmbeddingsMistralCloud", "EmbeddingsOllama",
     "EmbeddingsOpenAi"]),
   ("retriever",
    ["RetrieverContextualCompression", "RetrieverMultiQuery", "RetrieverVectorStore",
     "RetrieverWorkflow", "MemoryChatRetriever", "VectorStoreInMemory",
     "VectorStoreInMemoryInsert", "VectorStoreInMemoryLoad", "VectorStoreMilvus",
     "VectorStoreMongoDBAtlas", "VectorStorePGVector", "VectorStorePinecone",
     "VectorStorePineconeInsert", "VectorStorePineconeLoad", "VectorStoreQdrant",
     "VectorStoreSupabase", "VectorStoreSupabaseInsert", "VectorStoreSupabaseLoad",
     "VectorStoreWeaviate", "VectorStoreZep", "VectorStoreZepInsert",
     "VectorStoreZepLoad"]),
   ("evaluator",
    ["SentimentAnalysis", "TextClassifier", "InformationExtractor", "RerankerCohere",
     "OutputParserAutofixing"]),
   ("guardrail", ["GooglePerspective", "AwsRekognition"]),
   ("chain",
    ["ChainLlm", "ChainRetrievalQa", "ChainSummarization", "ToolWorkflow",
     "ToolExecutor", "ModelSelector", "OutputParserStructured", "OutputParserItemList",
     "OutputParserAutofixing", "TextSplitterCharacterTextSplitter",
     "TextSplitterRecursiveCharacterTextSplitter", "TextSplitterTokenSplitter",
     "ToolThink"])]

/-- Whether `pat` occurs as a contiguous run somewhere in the haystack. -/
def containsSubGo (pat : List Char) : List Char → Bool
  | [] => pat.isEmpty
  | c :: cs => pat.isPrefixOf (c :: cs) || containsSubGo pat cs

/-- Substring test (the regex heuristics are all substring patterns, run on
the lower-cased node type, apart from the one anchored prefix below). -/
def containsSub (s pat : String) : Bool := containsSubGo pat.data s.data

/-- The anchored alternative `^lm[a-z]` of the generation rule. -/
def lmLetterStart (s : String) : Bool :=
  match s.data with
  | 'l' :: 'm' :: c :: _ => 'a' ≤ c && c ≤ 'z'
  | _ => false

/-- The `REGEX_RULES` tiers in declaration order, applied to the lower-cased
node type (all patterns are lower-case, so the `/i` flags are inert). -/
def regexHeuristic (lower : String) : Option String :=
  if containsSub lower "agent" then some "agent"
  else if containsSub lower "embedding" then some "embedding"
  else if containsSub lower "retriev" || containsSub lower "vectorstore" then
    some "retriever"
  else if containsSub lower "lmchat" || lmLetterStart lower || containsSub lower "chat" ||
      containsSub lower "openai" || containsSub lower "anthropic" ||
      containsSub lower "gemini" || containsSub lower "mistral" ||
      containsSub lower "groq" || containsSub lower "cohere" then
    some "generation"
  else if containsSub lower "tool" then some "tool"
  else if containsSub lower "chain" || containsSub lower "textsplitter" ||
      containsSub lower "parser" || containsSub lower "memory" ||
      containsSub lower "workflow" then
    some "chain"
  else if containsSub lower "rerank" || containsSub lower "classif" ||
      containsSub lower "sentiment" || containsSub lower "extract" then
    some "evaluator"
  else if containsSub lower "perspective" || containsSub lower "rekognition" ||
      containsSub lower "moderation" || containsSub lower "guardrail" then
    some "guardrail"
  else none

/-- The `INTERNAL_LOGIC` set of core control-flow node types. -/
def internalLogic : List String :=
  ["If", "Switch", "Set", "Move", "Rename", "Wait", "WaitUntil", "Function",
   "FunctionItem", "Code", "NoOp", "ExecuteWorkflow", "SubworkflowTo"]

/-- Embedding of `categoryFallback`: the category hint is a JS value (the
`switch` only fires on the four literal strings). -/
def categoryFallback (ty : String) (category : JsValue) : Option String :=
  match category with
  | JsValue.str "Trigger Nodes" => some "event"
  | JsValue.str "Transform Nodes" => some "chain"
  | JsValue.str "AI/LangChain Nodes" => some "chain"
  | JsValue.str "Core Nodes" =>
    if internalLogic.contains ty then some "chain"
    else if ty = "Schedule" || ty = "Cron" then some "event"
    else some "tool"
  | _ => none

/-- ASCII lower-casing of a string (`String.prototype.toLowerCase` on the
identifiers the mapper sees). -/
def toLowerStr (s : String) : String := String.mk (s.data.map Char.toLower)

/-- First value under key `k` in a JS-valued attribute list, `undefined` when
absent. -/
def lookupAttr (attrs : List (String × JsValue)) (k : String) : JsValue :=
  match attrs.find? (fun p => p.1 == k) with
  | some p => p.2
  | none => JsValue.undef

/-- Embedding of `mapNodeToObservationType`. `nodeType` is `none` when the
caller passes `undefined` (a missing `node?.type`); a non-string argument
also returns `undefined` and is subsumed by `none`. The category hint is
read from `n8n.node.category`, falling back (via JS `||`) to
`n8n.node.category_raw`. -/
def mapNodeToObservationType (nodeType : Option String)
    (nodeAttributes : List (String × JsValue)) : Option String :=
  match nodeType with
  | none => none
  | some t =>
    if t = "" then none
    else
      match (exactSets.find? (fun p => p.2.contains t)).map (fun p => p.1) with
      | some obsType => some obsType
      | none =>
        match regexHeuristic (toLowerStr t) with
        | some obsType => some obsType
        | none =>
          let category := jsOr (lookupAttr nodeAttributes "n8n.node.category")
            (lookupAttr nodeAttributes "n8n.node.category_raw")
          categoryFallback t category

/-! I/O capture and sanitizer (tracing.js lines 159-212). -/

/-- The `CANDIDATE_KEYS` priority list of `extractNodeInput`. -/
def candidateKeys : List String :=
  ["text", "prompt", "input", "query", "question", "messages", "systemMessage",
   "systemPrompt", "instructions", "url"]

/-- Parameter read with the `!== undefined` presence test of
`extractNodeInput`: `none` when the key is absent or holds `undefined`. -/
def paramPresent (params : List (String × JsValue)) (k : String) : Option JsValue :=
  match lookupAttr params k with
  | JsValue.undef => none
  | v => some v

/-- Field read on an arbitrary JS value with the same presence test (property
access on a non-object yields `undefined`). -/
def fieldPresent (v : JsValue) (k : String) : Option JsValue :=
  match getField v k with
  | JsValue.undef => none
  | w => some w

/-- The fallback branch of `extractNodeInput`: any string parameter shorter
than 400 characters plus all numeric and boolean parameters, in entry
order. -/
def fallbackPrimitives (params : List (String × JsValue)) : List (String × JsValue) :=
  params.filter (fun kv =>
    match kv.2 with
    | JsValue.str s => s.data.length < 400
    | JsValue.num _ => true
    | JsValue.bool _ => true
    | _ => false)

/-- Embedding of `extractNodeInput` (tracing.js lines 159-189) on a node
object with parameter list `params` (`node.parameters || {}` makes a
missing parameter bag the empty list; the `!node || typeof node !==
'object'` guard is handled by the caller model). Returns `none` when
nothing qualifies, so no attribute is attached. -/
def extractNodeInput (params : List (String × JsValue)) : Option (List (String × JsValue)) :=
  let optionsVal := lookupAttr params "options"
  let primary := candidateKeys.flatMap (fun k =>
    (match paramPresent params k with
     | some v => [(k, v)]
     | none => []) ++
    (if jsTruthy optionsVal then
       match fieldPresent optionsVal k with
       | some v => [("options." ++ k, v)]
       | none => []
     else []))
  let out := if primary.isEmpty then fallbackPrimitives params else primary
  if out.isEmpty then none else some out

/-- One output record of a task run (`item.json` is all the wrapper reads). -/
structure TaskItem where
  json : JsValue
deriving DecidableEq

/-- The task result shape the wrapper inspects: `result.data` is the per-run
array (possibly absent), indexed by `runIndex`. -/
structure RunNodeResult where
  data : Option (List (List TaskItem))
deriving DecidableEq

/-- The `{primary, items}` mapping produced by `extractNodeOutput`. -/
structure ExtractedOutput where
  primary : JsValue
  items : List JsValue
deriving DecidableEq

/-- The `first.output || first.completion || first.text || first.result ||
first.response || undefined` chain of `extractNodeOutput`: JS `||` takes
the first truthy operand, so falsy present fields are skipped. -/
def priorityChainPrimary (first : JsValue) : JsValue :=
  jsOr (getField first "output")
    (jsOr (getField first "completion")
      (jsOr (getField first "text")
        (jsOr (getField first "result")
          (jsOr (getField first "response") JsValue.undef))))

/-- Embedding of `extractNodeOutput` (tracing.js lines 191-212). The guards:
`result?.data?.[runIndex]` missing (no per-run records) returns
`undefined`; an empty record array fails `jsonArray?.length`; `primary` is
assigned only when the first record is a truthy object. No step of this
model can throw, so the `catch` branch returning `{_error}` is
unreachable. -/
def extractNodeOutput (result : Option RunNodeResult) (runIndex : Nat) :
    Option ExtractedOutput :=
  let outputData : Option (List TaskItem) :=
    match result with
    | some r =>
      match r.data with
      | some d => d.get? runIndex
      | none => none
    | none => none
  match outputData with
  | none => none
  | some items =>
    let jsonArray := items.map TaskItem.json
    if jsonArray.isEmpty then none
    else
      let first := jsonArray.headD JsValue.undef
      let primary :=
        if isObjectLike first then priorityChainPrimary first else JsValue.undef
      some { primary := primary, items := jsonArray.take 10 }

/-! Per-node attribute construction (tracing.js lines 648-656). -/

/-- The value stored for one flattened node entry (tracing.js lines 650-655):
strings and numbers are kept as-is; every other value — booleans included —
goes through `JSON.stringify` (which can itself throw, or produce
`undefined` for an `undefined`/function leaf). -/
def nodeAttrValue (v : JsValue) : Except String JsValue :=
  match v with
  | JsValue.str _ => Except.ok v
  | JsValue.num _ => Except.ok v
  | _ =>
    match jsonStringifyE v with
    | Except.error e => Except.error e
    | Except.ok (some s) => Except.ok (JsValue.str s)
    | Except.ok none => Except.ok JsValue.undef

/-- Assignment `m[k] = v` on an ordered attribute map: an existing key is
overwritten in place, a new key is appended. -/
def upsertAssoc (m : List (String × JsValue)) (k : String) (v : JsValue) :
    List (String × JsValue) :=
  match m with
  | [] => [(k, v)]
  | (k', v') :: rest =>
    if k' = k then (k', v) :: rest else (k', v') :: upsertAssoc rest k v

/-- The `for (const [key, value] of Object.entries(flattenedNode))` loop:
each flattened entry is assigned under `n8n.node.<key>`; the first
serialization failure escapes (the loop is not inside a `try`). -/
def applyFlattenedNodeAttrs (base : List (String × JsValue))
    (flattened : List (String × JsValue)) : Except String (List (String × JsValue)) :=
  match flattened with
  | [] => Except.ok base
  | (k, v) :: rest =>
    match nodeAttrValue v with
    | Except.error e => Except.error e
    | Except.ok av => applyFlattenedNodeAttrs (upsertAssoc base ("n8n.node." ++ k) av) rest

/-! Attribute flattener, modelled from the spec (section 4.3): the
implementation the interception layer calls is the external `flat` npm
dependency, which is not part of this repository's sources. -/

/-- Modelled from the spec: a scalar terminal of the attribute flattener
(string / number / bool, plus null). -/
inductive FScalar where
  | str (s : String) : FScalar
  | num (n : Int) : FScalar
  | bool (b : Bool) : FScalar
  | null : FScalar
deriving DecidableEq

/-- Modelled from the spec: a field value of a record under flattening —
either a scalar terminal or a reference into a heap of nodes. References
allow representing the self-referential (cyclic) engine objects the spec
calls out as an explicit edge case. -/
inductive FNodeVal where
  | scalar (v : FScalar) : FNodeVal
  | child (addr : Nat) : FNodeVal
deriving DecidableEq

/-- Modelled from the spec: one heap node of a possibly-cyclic record —
a mapping or a sequence. -/
inductive FNode where
  | obj (fields : List (String × FNodeVal)) : FNode
  | arr (elems : List FNodeVal) : FNode
deriving DecidableEq

/-- Canonical rendering of a scalar inside a serialized sequence. -/
def fScalarRender : FScalar → String
  | FScalar.str s => "\"" ++ s ++ "\""
  | FScalar.num n => toString n
  | FScalar.bool b => if b then "true" else "false"
  | FScalar.null => "null"

/-- Modelled from the spec: canonical string serialization of a non-scalar
terminal (spec section 8: `{a:{b:1, c:[1,2]}}` flattens `c` to `"[1,2]"`),
with a depth bound so a cyclic value serializes to a `[Circular]` marker
instead of hanging. -/
def serializeFVal (heap : List FNode) : Nat → FNodeVal → String
  | _, FNodeVal.scalar v => fScalarRender v
  | 0, FNodeVal.child _ => "[Circular]"
  | Nat.succ fuel, FNodeVal.child a =>
    match heap.get? a with
    | none => "null"
    | some (FNode.arr elems) =>
      "[" ++ String.intercalate "," (elems.map (serializeFVal heap fuel)) ++ "]"
    | some (FNode.obj fields) =>
      "\x7b" ++ String.intercalate ","
        (fields.map (fun kv => "\"" ++ kv.1 ++ "\":" ++ serializeFVal heap fuel kv.2)) ++
        "\x7d"

/-- Dotted-key join with the delimiter `.`. -/
def joinKey (pfx k : String) : String := if pfx = "" then k else pfx ++ "." ++ k

/-- Modelled from the spec (section 4.3): recursively walk nested mappings,
joining keys with `.`; keep scalar terminals as-is; serialize sequence
terminals to their canonical string form; guard cycles by bounded depth
(the spec allows "bounded depth or seen-set") so the walk is total — it is
structurally recursive on the fuel, hence it can neither throw nor hang. -/
def flattenGo (heap : List FNode) : Nat → String → FNodeVal → List (String × FScalar)
  | 0, pfx, _ => [(pfx, FScalar.str "[MaxDepth]")]
  | Nat.succ _, pfx, FNodeVal.scalar v => [(pfx, v)]
  | Nat.succ fuel, pfx, FNodeVal.child a =>
    match heap.get? a with
    | none => [(pfx, FScalar.null)]
    | some (FNode.obj fields) =>
      fields.flatMap (fun kv => flattenGo heap fuel (joinKey pfx kv.1) kv.2)
    | some (FNode.arr _) =>
      [(pfx, FScalar.str (serializeFVal heap fuel (FNodeVal.child a)))]

/-- Modelled from the spec: `flatten(record, "")` of the record rooted at
heap address `root`; the depth budget `heap.length + 1` fully traverses
every acyclic heap (a path of distinct addresses is at most `heap.length`
long) and cuts cycles defensively. -/
def flattenRecord (heap : List FNode) (root : Nat) : List (String × FScalar) :=
  flattenGo heap (heap.length + 1) "" (FNodeVal.child root)

/-! Interception layer: the patched `processRunExecutionData` and `runNode`
(tracing.js lines 436-572 and 591-757), as functions from the behaviour of
the delegated original engine method to the sequence of span operations
performed and the outcome surfaced to the engine's caller. -/

/-- The env-derived module constants of tracing.js, read once at startup. -/
structure TracingConfig where
  onlyWorkflowSpans : Bool
  mapLangfuseObservationTypes : Bool
  langfuseTypeInNodeSpanName : Bool
  useNodeNameSpan : Bool
  dynamicWorkflowTraceName : Bool
  workflowSpanNamePattern : Option String
  captureIo : Bool
  maxIoChars : Nat
deriving DecidableEq

/-- The configuration produced by the documented env-var defaults. -/
def defaultConfig : TracingConfig :=
  { onlyWorkflowSpans := false
    mapLangfuseObservationTypes := true
    langfuseTypeInNodeSpanName := false
    useNodeNameSpan := true
    dynamicWorkflowTraceName := false
    workflowSpanNamePattern := none
    captureIo := true
    maxIoChars := 12000 }

/-- One observable span operation performed by a wrapper. `spanOpen` carries
the name and initial attribute set passed to the tracer. -/
inductive SpanEvent where
  | spanOpen (name : String) (attrs : List (String × JsValue)) : SpanEvent
  | spanClose : SpanEvent
  | recordException (msg : String) : SpanEvent
  | setStatusError (msg : String) : SpanEvent
  | setAttr (key : String) (value : JsValue) : SpanEvent
deriving DecidableEq

/-- How the delegated original engine method behaves on one call: it either
throws synchronously, or returns a promise that resolves or rejects.
Errors are identified by their rendered message (`String(error.message ||
error)`). -/
inductive EngineBehavior (α : Type) where
  | syncThrow (msg : String) : EngineBehavior α
  | resolve (value : α) : EngineBehavior α
  | reject (msg : String) : EngineBehavior α

/-- What the wrapped call surfaces to the engine's caller. -/
inductive CallOutcome (α : Type) where
  | resolved (value : α) : CallOutcome α
  | rejected (msg : String) : CallOutcome α
  | threwSync (msg : String) : CallOutcome α

/-- The pieces of a settled workflow result the wrapper inspects:
`result.data.resultData.error` (as its rendered message) and
`result.data.resultData.runData`. -/
structure WorkflowRunResult where
  domainError : Option String
  runData : Option JsValue

/-- A pre-existing active parent span as the rename heuristic sees it. -/
structure RootSpan where
  name : String
  attributes : List (String × JsValue)
deriving DecidableEq

/-- OTel `span.setAttribute` on the modelled parent span. -/
def setSpanAttr (p : RootSpan) (k : String) (v : JsValue) : RootSpan :=
  { p with attributes := upsertAssoc p.attributes k v }

/-- The `^(GET|POST|PUT|PATCH|DELETE|HEAD|OPTIONS)$/i` test on the parent
span's name. -/
def nameLooksHttpVerb (name : String) : Bool :=
  ["GET", "POST", "PUT", "PATCH", "DELETE", "HEAD", "OPTIONS"].contains
    (String.mk (name.data.map Char.toUpper))

/-- The `http.method || http.request.method` attribute probe (truthiness,
so an empty-string attribute does not count). -/
def hasHttpMethodAttr (p : RootSpan) : Bool :=
  jsTruthy (jsOr (lookupAttr p.attributes "http.method")
    (lookupAttr p.attributes "http.request.method"))

/-- Embedding of the root-span rename heuristic (tracing.js lines 465-501):
runs only when a parent span is active and auto-instrumentations are on
(`!ONLY_WORKFLOW_SPANS`); renames the span, copies workflow attributes
onto it without overwriting existing keys, and records the original name
and the naming mode as side attributes. -/
def rootRenameHeuristic (cfg : TracingConfig) (wfId wfName execId : String)
    (wfAttrs : List (String × JsValue)) (parent : Option RootSpan) : Option RootSpan :=
  match parent with
  | none => none
  | some p =>
    if !cfg.onlyWorkflowSpans && (hasHttpMethodAttr p || nameLooksHttpVerb p.name) then
      let newRootName :=
        if cfg.dynamicWorkflowTraceName then
          sanitizeSegment wfId "wf" ++ "-" ++ sanitizeSegment wfName "workflow" ++ "-" ++
            sanitizeSegment execId "exec"
        else "n8n.workflow.request"
      let p1 : RootSpan := { p with name := newRootName }
      let p2 := wfAttrs.foldl
        (fun acc kv =>
          if lookupAttr acc.attributes kv.1 = JsValue.undef then
            setSpanAttr acc kv.1 kv.2
          else acc)
        p1
      let p3 := setSpanAttr p2 "n8n.http.original_name" (JsValue.str p.name)
      let p4 := setSpanAttr p3 "n8n.trace.naming"
        (JsValue.str (if cfg.dynamicWorkflowTraceName then "dynamic" else "constant"))
      some p4
    else some p

/-- Option-to-JS-value view of a `safeJSONStringify` result. -/
def optStrToJs : Option String → JsValue
  | some s => JsValue.str s
  | none => JsValue.undef

/-- The success branch of the workflow wrapper's `.then` handler (tracing.js
lines 529-558): record a domain-level error if the engine's result reports
one, then under `CAPTURE_IO` attach the serialized run data as the trace
output and (the `langfuse.trace.input` attribute being never set earlier
on this span) a minimal trace input. -/
def workflowSuccessEvents (cfg : TracingConfig) (wfId wfName : String)
    (r : WorkflowRunResult) : List SpanEvent :=
  (match r.domainError with
   | some m => [SpanEvent.recordException m, SpanEvent.setStatusError m]
   | none => []) ++
  (if cfg.captureIo then
     (match r.runData with
      | some rd =>
        [SpanEvent.setAttr "langfuse.trace.output"
          (JsValue.str (truncateIo cfg.maxIoChars (safeJSONStringifyJs rd)))]
      | none => []) ++
     [SpanEvent.setAttr "langfuse.trace.input"
       (optStrToJs (safeJSONStringifyJs (JsValue.obj (fieldsOfList
         [("workflowId", JsValue.str wfId), ("workflowName", JsValue.str wfName)]))))]
   else [])

/-- The workflow attribute set (tracing.js lines 451-460); `settingsAttrs`
stands for the spread of `flatten(wfData?.settings ?? {})`, whose keys are
prefixed `n8n.workflow.settings.` and therefore never collide with the
four fixed keys. -/
def workflowAttrs (wfId wfName execId sessionId : String)
    (settingsAttrs : List (String × JsValue)) : List (String × JsValue) :=
  [("n8n.workflow.id", JsValue.str wfId),
   ("n8n.workflow.name", JsValue.str wfName),
   ("n8n.execution.id", JsValue.str execId),
   ("n8n.session.id", JsValue.str sessionId)] ++ settingsAttrs

/-- Embedding of the patched `processRunExecutionData` (tracing.js lines
438-572). Returns the span events performed, the final state of the
pre-existing parent span, and the outcome surfaced to the caller. The
close handlers are attached with `.then(...).finally(...)` on the promise
returned by the original method, so a synchronous throw from the original
escapes before they exist: on that path the opened span is never closed. -/
def processRunExecutionDataModel (cfg : TracingConfig)
    (wfId wfName execId : String) (settingsAttrs : List (String × JsValue))
    (parent : Option RootSpan) (behavior : EngineBehavior WorkflowRunResult) :
    List SpanEvent × Option RootSpan × CallOutcome WorkflowRunResult :=
  let sessionId := deriveSessionId execId
  let wfAttrs := workflowAttrs wfId wfName execId sessionId settingsAttrs
  let parentAfter := rootRenameHeuristic cfg wfId wfName execId wfAttrs parent
  let spanName := buildWorkflowSpanName cfg.workflowSpanNamePattern
    cfg.dynamicWorkflowTraceName wfId wfName execId sessionId
  match behavior with
  | EngineBehavior.syncThrow e =>
    ([SpanEvent.spanOpen spanName wfAttrs], parentAfter, CallOutcome.threwSync e)
  | EngineBehavior.resolve r =>
    (SpanEvent.spanOpen spanName wfAttrs ::
      (workflowSuccessEvents cfg wfId wfName r ++ [SpanEvent.spanClose]),
     parentAfter, CallOutcome.resolved r)
  | EngineBehavior.reject e =>
    (SpanEvent.spanOpen spanName wfAttrs ::
      [SpanEvent.recordException e, SpanEvent.setStatusError e, SpanEvent.spanClose],
     parentAfter, CallOutcome.rejected e)

/-- The node fields the patched `runNode` reads. `flattened` stands for
`flatten(node ?? {}, { delimiter: '.' })` — the output of the external
`flat` dependency on the node object, supplied as an input of the model —
and `parameters` for `node.parameters || {}`. `name`/`nodeType` are
`none` when the property is absent (the degenerate case where
`executionData?.node` is itself missing turns `node` into the string
`'unknown'`, on which every read below yields `undefined`, i.e. `none`). -/
structure NodeData where
  name : Option String
  nodeType : Option String
  flattened : List (String × JsValue)
  parameters : List (String × JsValue)

/-- JS `x || dflt` for an optional string (both `undefined` and `""` fall
through to the default). -/
def jsOrDefault (v : Option String) (dflt : String) : String :=
  match v with
  | some s => if s = "" then dflt else s
  | none => dflt

/-- The base node attribute literal (tracing.js lines 639-646): `??` for
`workflow?.id`, `executionId` and `userId` (nullish coalescing keeps empty
strings), `||` for `node?.name`. -/
def nodeBaseAttrs (workflowId execId userId : Option String)
    (nodeName : Option String) : List (String × JsValue) :=
  let executionId := execId.getD "unknown"
  [("n8n.workflow.id", JsValue.str (workflowId.getD "unknown")),
   ("n8n.execution.id", JsValue.str executionId),
   ("n8n.session.id", JsValue.str (deriveSessionId executionId)),
   ("n8n.user.id", JsValue.str (userId.getD "unknown")),
   ("n8n.node.name", JsValue.str (jsOrDefault nodeName "unknown"))]

/-- The observation-type step (tracing.js lines 674-681): classification is
consulted only when `MAP_LANGFUSE_OBSERVATION_TYPES` is on; a result is
stored under both attribute keys. -/
def nodeObservationStep (cfg : TracingConfig) (nodeType : Option String)
    (attrs : List (String × JsValue)) :
    Option String × List (String × JsValue) :=
  if cfg.mapLangfuseObservationTypes then
    match mapNodeToObservationType nodeType attrs with
    | some t =>
      (some t,
       upsertAssoc (upsertAssoc attrs "langfuse.observation.type" (JsValue.str t))
         "n8n.langfuse.observation.type" (JsValue.str t))
    | none => (none, attrs)
  else (none, attrs)

/-- The node span naming precedence (tracing.js lines 683-691): raw node
name when `USE_NODE_NAME_SPAN`, else the observation-type template when
enabled and a classification exists, else the constant. -/
def nodeSpanNameModel (cfg : TracingConfig) (nodeName : Option String)
    (observationType : Option String) : String :=
  if cfg.useNodeNameSpan then jsOrDefault nodeName "unknown-node"
  else
    match observationType with
    | some t => if cfg.langfuseTypeInNodeSpanName then "n8n.node." ++ t ++ ".execute"
        else "n8n.node.execute"
    | none => "n8n.node.execute"

/-- The input-capture step inside `startActiveSpan` (tracing.js lines
697-711): under `CAPTURE_IO`, a qualifying input object is serialized,
truncated and attached under two attribute keys; no step of this model can
throw, so its guarding `try` is inert. -/
def nodeInputEvents (cfg : TracingConfig) (nd : NodeData) : List SpanEvent :=
  if cfg.captureIo then
    match extractNodeInput nd.parameters with
    | some io =>
      let s := truncateIo cfg.maxIoChars
        (safeJSONStringifyJs (JsValue.obj (fieldsOfList io)))
      [SpanEvent.setAttr "langfuse.observation.input" (JsValue.str s),
       SpanEvent.setAttr "gen_ai.prompt" (JsValue.str s)]
    | none => []
  else []

/-- The `{primary, items}` mapping as the object `JSON.stringify` sees it. -/
def extractedToJs (ex : ExtractedOutput) : JsValue :=
  JsValue.obj (JsFields.cons "primary" ex.primary
    (JsFields.cons "items" (JsValue.arr (arrOfList ex.items)) JsFields.nil))

/-- The output-capture step on the success path (tracing.js lines 722-742):
`JSON.stringify(finalJson)` runs inside a `try` whose `catch` only warns,
so a serialization throw skips all output attributes; otherwise the raw
output JSON is attached and, under `CAPTURE_IO`, the extracted
`{primary, items}` summary as well. -/
def nodeOutputEvents (cfg : TracingConfig) (r : RunNodeResult) (runIndex : Nat) :
    List SpanEvent :=
  let outputData : Option (List TaskItem) :=
    match r.data with
    | some d => d.get? runIndex
    | none => none
  let finalJson : Option (List JsValue) :=
    match outputData with
    | some items => some (items.map TaskItem.json)
    | none => none
  let stringified : Except String (Option String) :=
    match finalJson with
    | none => Except.ok none
    | some l => jsonStringifyE (JsValue.arr (arrOfList l))
  match stringified with
  | Except.error _ => []
  | Except.ok s =>
    SpanEvent.setAttr "n8n.node.output_json" (optStrToJs s) ::
    (if cfg.captureIo then
       match extractNodeOutput (some r) runIndex with
       | some ex =>
         let os := truncateIo cfg.maxIoChars (safeJSONStringifyJs (extractedToJs ex))
         [SpanEvent.setAttr "langfuse.observation.output" (JsValue.str os),
          SpanEvent.setAttr "gen_ai.completion" (JsValue.str os)]
       | none => []
     else [])

/-- Embedding of the patched `runNode` (tracing.js lines 591-757). The
attribute-flattening loop runs before the span is created and outside any
`try`, so its failure (`Except.error`) throws out of `runNode` with no
span at all. Otherwise the span is opened by `startActiveSpan` whose
callback is `async`: the original method's synchronous throw and its
asynchronous rejection land in the same `catch` — the exception is
recorded, the status set to error, the error rethrown unchanged (becoming
a rejection of the returned promise) — and the `finally` closes the span
on every path. -/
def runNodeModel (cfg : TracingConfig) (workflowId execId userId : Option String)
    (nd : NodeData) (runIndex : Nat) (behavior : EngineBehavior RunNodeResult) :
    Except String (List SpanEvent × CallOutcome RunNodeResult) :=
  let base := nodeBaseAttrs workflowId execId userId nd.name
  match applyFlattenedNodeAttrs base nd.flattened with
  | Except.error e => Except.error e
  | Except.ok attrs1 =>
    let step := nodeObservationStep cfg nd.nodeType attrs1
    let spanName := nodeSpanNameModel cfg nd.name step.1
    let ins := nodeInputEvents cfg nd
    match behavior with
    | EngineBehavior.resolve r =>
      Except.ok
        (SpanEvent.spanOpen spanName step.2 ::
          (ins ++ nodeOutputEvents cfg r runIndex ++ [SpanEvent.spanClose]),
         CallOutcome.resolved r)
    | EngineBehavior.syncThrow e =>
      Except.ok
        (SpanEvent.spanOpen spanName step.2 ::
          (ins ++ [SpanEvent.recordException e, SpanEvent.setStatusError e,
            SpanEvent.setAttr "n8n.node.status" (JsValue.str "error"),
            SpanEvent.spanClose]),
         CallOutcome.rejected e)
    | EngineBehavior.reject e =>
      Except.ok
        (SpanEvent.spanOpen spanName step.2 ::
          (ins ++ [SpanEvent.recordException e, SpanEvent.setStatusError e,
            SpanEvent.setAttr "n8n.node.status" (JsValue.str "error"),
            SpanEvent.spanClose]),
         CallOutcome.rejected e)

/-- The span events `runNode` performs (none at all when the pre-span
attribute flattening throws). -/
def runNodeEvents (cfg : TracingConfig) (workflowId execId userId : Option String)
    (nd : NodeData) (runIndex : Nat) (behavior : EngineBehavior RunNodeResult) :
    List SpanEvent :=
  match runNodeModel cfg workflowId execId userId nd runIndex behavior with
  | Except.ok (evts, _) => evts
  | Except.error _ => []

/-- Number of `spanOpen` events in a trace. -/
def countOpens (l : List SpanEvent) : Nat :=
  l.countP (fun e =>
    match e with
    | SpanEvent.spanOpen _ _ => true
    | _ => false)

/-- Number of `spanClose` events in a trace. -/
def countCloses (l : List SpanEvent) : Nat :=
  l.countP (fun e =>
    match e with
    | SpanEvent.spanClose => true
    | _ => false)

/-! Shared lemmas about span-event traces. -/

/-- Opens count distributes over trace concatenation. -/
theorem countOpens_append (l₁ l₂ : List SpanEvent) :
    countOpens (l₁ ++ l₂) = countOpens l₁ + countOpens l₂ := by
  simp [countOpens, List.countP_append]

/-- Closes count distributes over trace concatenation. -/
theorem countCloses_append (l₁ l₂ : List SpanEvent) :
    countCloses (l₁ ++ l₂) = countCloses l₁ + countCloses l₂ := by
  simp [countCloses, List.countP_append]

/-- The input-capture step opens and closes no span. -/
theorem nodeInputEvents_counts (cfg : TracingConfig) (nd : NodeData) :
    countOpens (nodeInputEvents cfg nd) = 0 ∧ countCloses (nodeInputEvents cfg nd) = 0 := by
  unfold nodeInputEvents
  split
  · split <;> simp [countOpens, countCloses, List.countP_cons]
  · simp [countOpens, countCloses]

/-- The output-capture step opens and closes no span. -/
theorem nodeOutputEvents_counts (cfg : TracingConfig) (r : RunNodeResult) (i : Nat) :
    countOpens (nodeOutputEvents cfg r i) = 0 ∧
      countCloses (nodeOutputEvents cfg r i) = 0 := by
  unfold nodeOutputEvents
  refine ⟨?_, ?_⟩ <;>
  · simp only [countOpens, countCloses]
    repeat' split
    all_goals simp [List.countP_cons]

/-- The workflow success handler opens and closes no span. -/
theorem workflowSuccessEvents_counts (cfg : TracingConfig) (wfId wfName : String)
    (r : WorkflowRunResult) :
    countOpens (workflowSuccessEvents cfg wfId wfName r) = 0 ∧
      countCloses (workflowSuccessEvents cfg wfId wfName r) = 0 := by
  unfold workflowSuccessEvents
  refine ⟨?_, ?_⟩ <;>
  · simp only [countOpens, countCloses, List.countP_append]
    split <;> split <;>
      first
        | (split <;> simp [List.countP_cons])
        | simp [List.countP_cons]

/-- Claim C1, counterexample: the claim asserts span-open/close balance on
every exit path including a synchronous throw from the original engine
method; but the workflow wrapper attaches its close handlers with
`.then(...).finally(...)` on the promise the original returns, so when
`originalProcessRun.apply` throws synchronously the opened workflow span
is never closed: at this concrete input (default configuration, no parent
span, a synchronously-throwing engine) one span is opened and zero are
closed. -/
theorem workflow_sync_throw_leaks_span :
    countOpens (processRunExecutionDataModel defaultConfig "wf1" "My Flow" "exec1" []
        none (EngineBehavior.syncThrow "boom")).1 ≠
      countCloses (processRunExecutionDataModel defaultConfig "wf1" "My Flow" "exec1" []
        none (EngineBehavior.syncThrow "boom")).1 := by
  decide

/-- Claim C1, amended: every span opened by the node wrapper is closed on
every exit path of the wrapped call (success, asynchronous rejection, and a
synchronous throw — the `async` callback of `startActiveSpan` converts the
latter into a caught rejection and its `finally` closes the span), and
every span opened by the workflow wrapper is closed when the original
method's promise resolves or rejects; only a synchronous throw from the
original workflow-run method escapes before the close handlers are
attached and leaks the workflow span. -/
theorem span_open_close_balance (cfg : TracingConfig)
    (workflowId execId userId : Option String) (nd : NodeData) (runIndex : Nat)
    (b : EngineBehavior RunNodeResult) (cfg' : TracingConfig)
    (wfId wfName execId' : String) (settings : List (String × JsValue))
    (parent : Option RootSpan) (r : WorkflowRunResult) (e : String) :
    countOpens (runNodeEvents cfg workflowId execId userId nd runIndex b) =
      countCloses (runNodeEvents cfg workflowId execId userId nd runIndex b) ∧
    countOpens (processRunExecutionDataModel cfg' wfId wfName execId' settings parent
        (EngineBehavior.resolve r)).1 =
      countCloses (processRunExecutionDataModel cfg' wfId wfName execId' settings parent
        (EngineBehavior.resolve r)).1 ∧
    countOpens (processRunExecutionDataModel cfg' wfId wfName execId' settings parent
        (EngineBehavior.reject e)).1 =
      countCloses (processRunExecutionDataModel cfg' wfId wfName execId' settings parent
        (EngineBehavior.reject e)).1 := by
  refine ⟨?_, ?_, ?_⟩
  · have hi := nodeInputEvents_counts cfg nd
    simp only [countOpens, countCloses] at hi
    rcases happly : applyFlattenedNodeAttrs
        (nodeBaseAttrs workflowId execId userId nd.name) nd.flattened with e' | attrs1
    · simp [runNodeEvents, runNodeModel, happly, countOpens, countCloses]
    · cases b with
      | resolve rr =>
        have ho := nodeOutputEvents_counts cfg rr runIndex
        simp only [countOpens, countCloses] at ho
        simp [runNodeEvents, runNodeModel, happly, countOpens, countCloses,
          List.countP_cons, List.countP_append, hi.1, hi.2, ho.1, ho.2]
      | syncThrow em =>
        simp [runNodeEvents, runNodeModel, happly, countOpens, countCloses,
          List.countP_cons, List.countP_append, hi.1, hi.2]
      | reject em =>
        simp [runNodeEvents, runNodeModel, happly, countOpens, countCloses,
          List.countP_cons, List.countP_append, hi.1, hi.2]
  · unfold processRunExecutionDataModel
    have hw := workflowSuccessEvents_counts cfg' wfId wfName r
    simp only [countOpens, countCloses] at hw
    simp [countOpens, countCloses, List.countP_cons, List.countP_append, hw.1, hw.2]
  · unfold processRunExecutionDataModel
    simp [countOpens, countCloses, List.countP_cons]

/-- Claim C2: a task invocation whose underlying engine method throws
(synchronously or as a rejection) surfaces the original error unchanged as
the rejection of the wrapped call, after the exception is recorded on the
task span, the span status is set to error (plus the `n8n.node.status`
attribute), and the span is closed last. Stated under the hypothesis that
the pre-span attribute flattening succeeded (otherwise the engine method
is never invoked). -/
theorem runNode_error_path (cfg : TracingConfig)
    (workflowId execId userId : Option String) (nd : NodeData) (runIndex : Nat)
    (e : String) (attrs : List (String × JsValue))
    (h : applyFlattenedNodeAttrs
      (nodeBaseAttrs workflowId execId userId nd.name) nd.flattened = Except.ok attrs) :
    ∃ name spanAttrs ins,
      runNodeModel cfg workflowId execId userId nd runIndex (EngineBehavior.syncThrow e) =
        Except.ok
          (SpanEvent.spanOpen name spanAttrs ::
            (ins ++ [SpanEvent.recordException e, SpanEvent.setStatusError e,
              SpanEvent.setAttr "n8n.node.status" (JsValue.str "error"),
              SpanEvent.spanClose]),
           CallOutcome.rejected e) ∧
      runNodeModel cfg workflowId execId userId nd runIndex (EngineBehavior.reject e) =
        Except.ok
          (SpanEvent.spanOpen name spanAttrs ::
            (ins ++ [SpanEvent.recordException e, SpanEvent.setStatusError e,
              SpanEvent.setAttr "n8n.node.status" (JsValue.str "error"),
              SpanEvent.spanClose]),
           CallOutcome.rejected e) := by
  unfold runNodeModel
  simp only [h]
  exact ⟨_, _, _, rfl, rfl⟩

/-- A concrete node on which the attribute flattening trivially succeeds. -/
def witnessNode : NodeData :=
  { name := some "Node1"
    nodeType := some "n8n-nodes-base.httpRequest"
    flattened := []
    parameters := [] }

/-- Witness for `runNode_error_path` at a concrete input. -/
theorem runNode_error_path_witness :
    ∃ name spanAttrs ins,
      runNodeModel defaultConfig (some "w1") (some "e1") (some "u1") witnessNode 0
          (EngineBehavior.syncThrow "boom") =
        Except.ok
          (SpanEvent.spanOpen name spanAttrs ::
            (ins ++ [SpanEvent.recordException "boom", SpanEvent.setStatusError "boom",
              SpanEvent.setAttr "n8n.node.status" (JsValue.str "error"),
              SpanEvent.spanClose]),
           CallOutcome.rejected "boom") ∧
      runNodeModel defaultConfig (some "w1") (some "e1") (some "u1") witnessNode 0
          (EngineBehavior.reject "boom") =
        Except.ok
          (SpanEvent.spanOpen name spanAttrs ::
            (ins ++ [SpanEvent.recordException "boom", SpanEvent.setStatusError "boom",
              SpanEvent.setAttr "n8n.node.status" (JsValue.str "error"),
              SpanEvent.spanClose]),
           CallOutcome.rejected "boom") :=
  runNode_error_path defaultConfig (some "w1") (some "e1") (some "u1") witnessNode 0
    "boom" (nodeBaseAttrs (some "w1") (some "e1") (some "u1") (some "Node1")) rfl

/-- Claim C3: the classifier returns exactly the spec's example results. The
abstract hint `{category: "Core Nodes"}` of the spec's `classify` contract
corresponds at the call site to the node attribute `n8n.node.category`
(the flattening loop in `runNode` stores a node's `category` field under
that key, which is where `mapNodeToObservationType` reads its hint). -/
theorem classifier_examples :
    mapNodeToObservationType (some "LmChatOpenAi") [] = some "generation" ∧
    mapNodeToObservationType (some "RetrieverVectorStore") [] = some "retriever" ∧
    mapNodeToObservationType (some "UnknownWidget123")
      [("n8n.node.category", JsValue.str "Core Nodes")] = some "tool" ∧
    mapNodeToObservationType (some "Schedule")
      [("n8n.node.category", JsValue.str "Core Nodes")] = some "event" ∧
    mapNodeToObservationType (some "") [] = none := by
  decide

/-- The spec's flattening example `{a:{b:1, c:[1,2]}}` as a heap-allocated
record: address 0 is the root, 1 the inner mapping, 2 the sequence. -/
def exampleFlattenHeap : List FNode :=
  [FNode.obj [("a", FNodeVal.child 1)],
   FNode.obj [("b", FNodeVal.scalar (FScalar.num 1)), ("c", FNodeVal.child 2)],
   FNode.arr [FNodeVal.scalar (FScalar.num 1), FNodeVal.scalar (FScalar.num 2)]]

/-- A constructed self-referential record: the root's `self` field points
back at the root. -/
def cyclicFlattenHeap : List FNode := [FNode.obj [("self", FNodeVal.child 0)]]

/-- Claim C4: attribute flattening is total. `flattenRecord` is structurally
recursive on its depth budget, so it is a total function — it can neither
throw nor hang on any heap, cyclic ones included. Concretely: the spec's
example record flattens to `{"a.b": 1, "a.c": "[1,2]"}`, and a constructed
self-referential record flattens to a defensive bounded-depth marker
instead of diverging. -/
theorem flatten_total_examples :
    flattenRecord exampleFlattenHeap 0 =
      [("a.b", FScalar.num 1), ("a.c", FScalar.str "[1,2]")] ∧
    flattenRecord cyclicFlattenHeap 0 = [("self.self", FScalar.str "[MaxDepth]")] := by
  decide

/-- Claim C5, counterexample: `safeJSONStringify` does not always return a
string — called on `undefined`, `JSON.stringify` returns `undefined`
without throwing, the `catch` never fires, and the function returns
`undefined` (modelled as `Except.ok none`), which is not a string. -/
theorem safeJSONStringify_undefined_not_string :
    safeJSONStringifyE JsValue.undef = Except.ok none ∧
    ∀ s : String, safeJSONStringifyE JsValue.undef ≠ Except.ok (some s) := by
  refine ⟨rfl, fun s h => ?_⟩
  have h2 : (none : Option String) = some s :=
    Except.ok.inj (h : Except.ok (none : Option String) = Except.ok (some s))
  exact Option.noConfusion h2

/-- For any error message, serialising the `{ _serializationError: ... }`
object succeeds with a string. -/
theorem serializationError_object_serializes (e : String) :
    ∃ s, jsonStringifyE (JsValue.obj (JsFields.cons "_serializationError"
      (JsValue.str e) JsFields.nil)) = Except.ok (some s) :=
  ⟨_, rfl⟩

/-- Claim C5, amended: `safeJSONStringify` never throws; whenever
`JSON.stringify` yields a string it returns that string unchanged, and
whenever `JSON.stringify` throws it returns a string describing the
failure. (It returns a string on every input except those — `undefined`,
functions — whose `JSON.stringify` is `undefined`, where it returns
`undefined`.) -/
theorem serialization_safety_amended (v : JsValue) :
    (∃ r, safeJSONStringifyE v = Except.ok r) ∧
    (∀ s, jsonStringifyE v = Except.ok (some s) →
      safeJSONStringifyE v = Except.ok (some s)) ∧
    (∀ e, jsonStringifyE v = Except.error e →
      ∃ s, safeJSONStringifyE v = Except.ok (some s)) := by
  refine ⟨?_, fun s h => ?_, fun e h => ?_⟩
  · cases hj : jsonStringifyE v with
    | ok r => exact ⟨r, by simp [safeJSONStringifyE, hj]⟩
    | error e =>
      obtain ⟨s, hs⟩ := serializationError_object_serializes e
      exact ⟨some s, by simp [safeJSONStringifyE, hj, hs]⟩
  · simp [safeJSONStringifyE, h]
  · obtain ⟨s, hs⟩ := serializationError_object_serializes e
    exact ⟨s, by simp [safeJSONStringifyE, h, hs]⟩

/-- Witness for `serialization_safety_amended`: at a BigInt input,
`JSON.stringify` throws and the safe wrapper returns a describing string. -/
theorem serialization_safety_witness :
    ∃ s, safeJSONStringifyE (JsValue.bigintv 1) = Except.ok (some s) :=
  (serialization_safety_amended (JsValue.bigintv 1)).2.2
    "TypeError: Do not know how to serialize a BigInt" rfl

/-- Claim C6, counterexample: truncation is not idempotent at the same cap.
The truncated form of an over-cap string is itself longer than the cap
(the suffix is appended), so a second application cuts it again and
replaces the suffix: at cap 5 (the cap is whatever `TRACING_MAX_IO_CHARS`
is configured to), `truncateIO("aaaaaaa") = "aaaaa...[truncated 2 chars]"`
but applying `truncateIO` to that yields
`"aaaaa...[truncated 22 chars]"`. -/
theorem truncate_double_suffix :
    truncateIoStr 5 (truncateIoStr 5 "aaaaaaa") ≠ truncateIoStr 5 "aaaaaaa" := by
  decide

/-- A string made of a cap-length body followed by the 23-character suffix
`...[truncated 23 chars]` is a fixed point of truncation at that cap: the
cut reproduces the body, and the recomputed over-length is again 23, so
the suffix rewrites to itself. -/
theorem truncate_fixed_at_23 (maxChars : Nat) (l : List Char)
    (hl : l.length = maxChars) :
    truncateIoStr maxChars (String.mk l ++ truncSuffix 23) =
      String.mk l ++ truncSuffix 23 := by
  have hdata : (String.mk l ++ truncSuffix 23).data = l ++ (truncSuffix 23).data := rfl
  have hsfx : (truncSuffix 23).data.length = 23 := by decide
  have hlen : (String.mk l ++ truncSuffix 23).data.length = maxChars + 23 := by
    rw [hdata, List.length_append, hl, hsfx]
  have hgt : ¬ (String.mk l ++ truncSuffix 23).data.length ≤ maxChars := by
    rw [hlen]; omega
  have htake : (String.mk l ++ truncSuffix 23).data.take maxChars = l := by
    rw [hdata, List.take_append_of_le_length (le_of_eq hl.symm), ← hl, List.take_length]
  simp only [truncateIoStr, if_neg hgt, hlen, htake, Nat.add_sub_cancel_left]
  split <;> rfl

/-- Claim C6, amended: truncation at the same cap is idempotent on every
string within the cap (where it is the identity), and also on the boundary
strings exceeding the cap by exactly 23 characters, whose appended suffix
`...[truncated 23 chars]` is itself 23 characters long and reproduces
itself; beyond these cases it is not idempotent in general — a second
application replaces the suffix, as the counterexample shows. -/
theorem truncate_idempotence_cases (maxChars : Nat) (s : String) :
    (s.data.length ≤ maxChars →
      truncateIoStr maxChars (truncateIoStr maxChars s) = truncateIoStr maxChars s) ∧
    (s.data.length = maxChars + 23 →
      truncateIoStr maxChars (truncateIoStr maxChars s) = truncateIoStr maxChars s) := by
  constructor
  · intro h
    simp only [truncateIoStr, if_pos h]
  · intro h
    have hgt : ¬ s.data.length ≤ maxChars := by omega
    have hinner : truncateIoStr maxChars s =
        String.mk (s.data.take maxChars) ++ truncSuffix 23 := by
      simp only [truncateIoStr, if_neg hgt]
      rw [show s.data.length - maxChars = 23 by omega]
    have htk : (s.data.take maxChars).length = maxChars := by
      rw [List.length_take]; omega
    rw [hinner, truncate_fixed_at_23 maxChars (s.data.take maxChars) htk]

/-- Witness for `truncate_idempotence_cases`: a within-cap string and a
string exceeding the cap by exactly 23 characters. -/
theorem truncate_idempotence_witness :
    truncateIoStr 5 (truncateIoStr 5 "abc") = truncateIoStr 5 "abc" ∧
    truncateIoStr 5 (truncateIoStr 5 (String.mk (List.replicate 28 'a'))) =
      truncateIoStr 5 (String.mk (List.replicate 28 'a')) :=
  ⟨(truncate_idempotence_cases 5 "abc").1 (by decide),
   (truncate_idempotence_cases 5 (String.mk (List.replicate 28 'a'))).2 (by decide)⟩

/-- Key-presence test on object fields. -/
def fieldsHasKey : JsFields → String → Bool
  | JsFields.nil, _ => false
  | JsFields.cons k _ rest, key => k = key || fieldsHasKey rest key

/-- Whether the value has the key as an own property. -/
def hasFieldKey (v : JsValue) (k : String) : Bool :=
  match v with
  | JsValue.obj fs => fieldsHasKey fs k
  | _ => false

/-- The claim's reading of `primary`: the value of the first field of the
priority list that is *present* on the record, regardless of truthiness. -/
def firstPresentField (v : JsValue) : List String → JsValue
  | [] => JsValue.undef
  | k :: ks => if hasFieldKey v k then getField v k else firstPresentField v ks

/-- What the code actually takes: the first field of the priority list whose
value is *truthy*. -/
def firstTruthyField (v : JsValue) : List String → JsValue
  | [] => JsValue.undef
  | k :: ks => if jsTruthy (getField v k) then getField v k else firstTruthyField v ks

/-- The priority list of result-shape fields. -/
def priorityFields : List String := ["output", "completion", "text", "result", "response"]

/-- The `||` chain of `extractNodeOutput` is first-truthy selection over the
priority list. -/
theorem priorityChain_eq_firstTruthy (v : JsValue) :
    priorityChainPrimary v = firstTruthyField v priorityFields := rfl

/-- First record of the C7 counterexample: `output` is present but falsy
(the empty string), `completion` is present and truthy. -/
def cexFields : JsFields :=
  fieldsOfList [("output", JsValue.str ""), ("completion", JsValue.str "done")]

/-- A task result with exactly that record at run index 0. -/
def cexResult : RunNodeResult := { data := some [[{ json := JsValue.obj cexFields }]] }

/-- Claim C7, counterexample: `primary` is not the first *present* field of
the priority list — the `||` chain skips present-but-falsy fields. On a
first record `{output: "", completion: "done"}` the first present field is
`output` with value `""`, but the code returns `"done"`. -/
theorem extractOutput_truthiness_cex :
    extractNodeOutput (some cexResult) 0 =
      some { primary := JsValue.str "done", items := [JsValue.obj cexFields] } ∧
    firstPresentField (JsValue.obj cexFields) priorityFields = JsValue.str "" ∧
    extractNodeOutput (some cexResult) 0 ≠
      some { primary := firstPresentField (JsValue.obj cexFields) priorityFields,
             items := [JsValue.obj cexFields] } := by
  refine ⟨rfl, rfl, ?_⟩
  intro h
  have h2 := Option.some.inj h
  have h3 : JsValue.str "done" = JsValue.str "" := congrArg ExtractedOutput.primary h2
  exact absurd (JsValue.str.inj h3) (by decide)

/-- Claim C7, amended: for a task result with a nonempty record array at the
given run index, `extractOutput` returns `{primary, items}` where
`primary` is the value of the first field of the priority list `output,
completion, text, result, response` whose value on the first record is
truthy (`undefined` when the first record is not a truthy object or no
field qualifies — present-but-falsy fields are skipped), and `items` is
the first 10 record payloads verbatim; with no records at the index (or an
empty record array) it returns `undefined`. -/
theorem extractOutput_amended (d : List (List TaskItem)) (runIndex : Nat)
    (items : List TaskItem) (h : d.get? runIndex = some items) (hne : items ≠ []) :
    extractNodeOutput (some { data := some d }) runIndex =
      some { primary :=
               (if isObjectLike ((items.map TaskItem.json).headD JsValue.undef) then
                  firstTruthyField ((items.map TaskItem.json).headD JsValue.undef)
                    priorityFields
                else JsValue.undef),
             items := (items.map TaskItem.json).take 10 } ∧
    (∀ j, d.get? j = none → extractNodeOutput (some { data := some d }) j = none) ∧
    extractNodeOutput (some { data := none }) runIndex = none ∧
    extractNodeOutput none runIndex = none := by
  refine ⟨?_, fun j hj => ?_, rfl, rfl⟩
  · rw [List.get?_eq_getElem?] at h
    simp [extractNodeOutput, h, List.isEmpty_iff, hne, priorityChain_eq_firstTruthy]
  · rw [List.get?_eq_getElem?] at hj
    simp [extractNodeOutput, hj]

/-- Witness for `extractOutput_amended` at the concrete one-record result. -/
theorem extractOutput_amended_witness :
    extractNodeOutput (some { data := some [[{ json := JsValue.obj cexFields }]] }) 0 =
      some { primary :=
               (if isObjectLike (([({ json := JsValue.obj cexFields } : TaskItem)].map
                    TaskItem.json).headD JsValue.undef) then
                  firstTruthyField (([({ json := JsValue.obj cexFields } : TaskItem)].map
                    TaskItem.json).headD JsValue.undef) priorityFields
                else JsValue.undef),
             items := ([({ json := JsValue.obj cexFields } : TaskItem)].map
               TaskItem.json).take 10 } ∧
    (∀ j, ([[({ json := JsValue.obj cexFields } : TaskItem)]] :
        List (List TaskItem)).get? j = none →
      extractNodeOutput (some { data := some [[{ json := JsValue.obj cexFields }]] }) j =
        none) ∧
    extractNodeOutput (some { data := none }) 0 = none ∧
    extractNodeOutput none 0 = none :=
  extractOutput_amended [[{ json := JsValue.obj cexFields }]] 0
    [{ json := JsValue.obj cexFields }] rfl (by simp)

/-- A 200-character literal pattern (no placeholders), an admissible value
of `TRACING_WORKFLOW_SPAN_NAME_PATTERN`. -/
def longPattern : String := String.mk (List.replicate 200 'a')

set_option maxRecDepth 80000 in
/-- Claim C8, counterexample: with a configured pattern the name is not
always the pattern with its placeholders substituted — the wrapper caps
the substituted result at 180 characters (`.slice(0, 180)`), so a
200-character pattern yields a 180-character name. -/
theorem pattern_cap_cex :
    buildWorkflowSpanName (some longPattern) false "w" "n" "e" "s" ≠
      substitutePattern longPattern "w" "n" "e" "s" := by
  decide

/-- Claim C8, amended: the naming precedence stands as claimed, except that
the substituted pattern is additionally capped at 180 characters (with the
constant name as fallback were it empty): an active (non-whitespace)
pattern always wins over the dynamic flag and gives the capped
substitution; with no pattern, the dynamic flag gives the sanitized
`id-name-execution` concatenation, and otherwise the name is the constant
`n8n.workflow.execute`. -/
theorem workflow_naming_amended (p : String) (dyn : Bool)
    (wfId wfName execId sessId : String) (hp : patternActive (some p) = true) :
    buildWorkflowSpanName (some p) dyn wfId wfName execId sessId =
      (let n := String.mk ((substitutePattern p wfId wfName execId sessId).data.take 180)
       if n = "" then "n8n.workflow.execute" else n) ∧
    buildWorkflowSpanName (some p) true wfId wfName execId sessId =
      buildWorkflowSpanName (some p) false wfId wfName execId sessId ∧
    buildWorkflowSpanName none true wfId wfName execId sessId =
      sanitizeSegment wfId "wf" ++ "-" ++ sanitizeSegment wfName "workflow" ++ "-" ++
        sanitizeSegment execId "exec" ∧
    buildWorkflowSpanName none false wfId wfName execId sessId =
      "n8n.workflow.execute" := by
  simp only [patternActive] at hp
  refine ⟨?_, ?_, ?_, ?_⟩ <;>
    simp [buildWorkflowSpanName, workflowNameFallback, hp]

/-- Witness for `workflow_naming_amended` at a concrete active pattern. -/
theorem workflow_naming_witness :
    buildWorkflowSpanName (some "x-{workflowId}") true "w1" "Flow" "e1" "s1" =
      (let n := String.mk ((substitutePattern "x-{workflowId}" "w1" "Flow" "e1"
        "s1").data.take 180)
       if n = "" then "n8n.workflow.execute" else n) ∧
    buildWorkflowSpanName (some "x-{workflowId}") true "w1" "Flow" "e1" "s1" =
      buildWorkflowSpanName (some "x-{workflowId}") false "w1" "Flow" "e1" "s1" ∧
    buildWorkflowSpanName none true "w1" "Flow" "e1" "s1" =
      sanitizeSegment "w1" "wf" ++ "-" ++ sanitizeSegment "Flow" "workflow" ++ "-" ++
        sanitizeSegment "e1" "exec" ∧
    buildWorkflowSpanName none false "w1" "Flow" "e1" "s1" = "n8n.workflow.execute" :=
  workflow_naming_amended "x-{workflowId}" true "w1" "Flow" "e1" "s1" (by decide)

/-- Whether a JS value is a string or a number (the only two kinds the
attribute loop keeps as-is). -/
def isStringOrNumber : JsValue → Bool
  | JsValue.str _ => true
  | JsValue.num _ => true
  | _ => false

/-- Claim C9, counterexample: a boolean terminal is not kept as-is — the
loop's `typeof` test admits only strings and numbers, so `true` is stored
as the JSON string `"true"`. -/
theorem bool_attr_stringified_cex :
    nodeAttrValue (JsValue.bool true) = Except.ok (JsValue.str "true") ∧
    JsValue.str "true" ≠ JsValue.bool true := by
  exact ⟨rfl, by decide⟩

/-- Claim C9, amended: in the per-node attribute loop, string and number
terminals of the flattened node record are kept as-is, and every other
terminal — booleans included — is serialized to its JSON string form
rather than dropped (whenever its serialization yields a string). -/
theorem node_attr_values_amended :
    (∀ s, nodeAttrValue (JsValue.str s) = Except.ok (JsValue.str s)) ∧
    (∀ n, nodeAttrValue (JsValue.num n) = Except.ok (JsValue.num n)) ∧
    (∀ v s, isStringOrNumber v = false → jsonStringifyE v = Except.ok (some s) →
      nodeAttrValue v = Except.ok (JsValue.str s)) := by
  refine ⟨fun s => rfl, fun n => rfl, fun v s hv hs => ?_⟩
  cases v <;> simp_all [nodeAttrValue, isStringOrNumber]

/-- Witness for `node_attr_values_amended` at the boolean input. -/
theorem node_attr_values_witness :
    nodeAttrValue (JsValue.bool false) = Except.ok (JsValue.str "false") :=
  node_attr_values_amended.2.2 (JsValue.bool false) "false" rfl rfl

/-- Claim C10: with `TRACING_ONLY_WORKFLOW_SPANS` enabled the workflow
wrapper leaves any pre-existing active parent span completely unchanged on
workflow-run entry — the root-span rename heuristic is guarded by
`!ONLY_WORKFLOW_SPANS`, and no other step of the wrapper touches the
parent span. -/
theorem workflow_only_mode_parent_untouched (cfg : TracingConfig)
    (wfId wfName execId : String) (settings : List (String × JsValue))
    (parent : Option RootSpan) (b : EngineBehavior WorkflowRunResult) :
    (processRunExecutionDataModel { cfg with onlyWorkflowSpans := true }
        wfId wfName execId settings parent b).2.1 = parent := by
  cases parent <;> cases b <;>
    simp [processRunExecutionDataModel, rootRenameHeuristic]

end N8nTracing
